import Mathlib

/-!
# Verification of the DHCPv4/DHCPv6 message codec and client driver

Shallow embedding of the `dhcpv4` package (`dhcpv4.go`, `modifiers.go`,
`client.go`) and of the `dhcpv6` `OptIAPrefix` codec.  Go byte slices are
modelled as `List Nat` (each entry a byte value), Go's fixed-size arrays as
lists whose length is tracked by well-formedness predicates (in Go the
length is enforced by the array type), and fallible functions return
`Except String`.  Randomness (transaction-id generation) is passed in as an
explicit parameter.
-/

namespace Dhcp

/-- A Go `net.IP` value: a byte slice of any length. -/
abbrev NetIP := List Nat

/-- Go `net.IP.To4`: returns the 4-byte form when the address is a 4-byte
IPv4 address or a 16-byte IPv4-mapped IPv6 address, and `none` otherwise. -/
def ipTo4 (ip : NetIP) : Option NetIP :=
  if ip.length = 4 then some ip
  else if ip.length = 16 ∧ ip.take 10 = List.replicate 10 0 ∧
      ip.getD 10 0 = 255 ∧ ip.getD 11 0 = 255 then
    some (ip.drop 12)
  else none

/-- Go `net.IPv4zero`: the 16-byte (IPv4-in-IPv6) representation of 0.0.0.0. -/
def IPv4zero : NetIP := [0, 0, 0, 0, 0, 0, 0, 0, 0, 0, 255, 255, 0, 0, 0, 0]

/-- Big-endian 16-bit encoding (`binary.BigEndian.PutUint16`). -/
def beBytes16 (n : Nat) : List Nat := [n / 256 % 256, n % 256]

/-- Big-endian 32-bit encoding (`binary.BigEndian.PutUint32`). -/
def beBytes32 (n : Nat) : List Nat :=
  [n / 16777216 % 256, n / 65536 % 256, n / 256 % 256, n % 256]

/-- Big-endian decoding of a byte list (`binary.BigEndian.Uint16/Uint32`). -/
def beVal (l : List Nat) : Nat := l.foldl (fun a b => a * 256 + b) 0

/-- DHCPv4 option codes used by the embedded code (IANA numbers). -/
def OptionPad : Nat := 0
def OptionDHCPMessageType : Nat := 53
def OptionServerIdentifier : Nat := 54
def OptionRequestedIPAddress : Nat := 50
def OptionParameterRequestList : Nat := 55
def OptionTFTPServerName : Nat := 66
def OptionBootfileName : Nat := 67
def OptionEnd : Nat := 255
def OptionSubnetMask : Nat := 1
def OptionRouter : Nat := 3
def OptionDomainName : Nat := 15
def OptionDomainNameServer : Nat := 6

/-- DHCPv4 message-type values (`MessageTypeNone = 0`, Discover = 1,
Offer = 2, Request = 3, Ack = 5, Inform = 8). -/
def MessageTypeNone : Nat := 0
def MessageTypeDiscover : Nat := 1
def MessageTypeOffer : Nat := 2
def MessageTypeRequest : Nat := 3
def MessageTypeAck : Nat := 5
def MessageTypeInform : Nat := 8

/-- Opcodes: `OpcodeBootRequest = 1`, `OpcodeBootReply = 2`. -/
def OpcodeBootRequest : Nat := 1
def OpcodeBootReply : Nat := 2

/-- Modelled from the spec: the option variants (§3.3, §4.2) used by the
code under `src/`.  The option type itself (`Option` interface,
`OptMessageType`, `OptServerIdentifier`, `OptRequestedIPAddress`,
`OptParameterRequestList`, `OptionGeneric`) is not under `src/`; the
variants are modelled from the spec's wire formats.  The `End` option that
`New` constructs as `OptionGeneric{OptionCode: OptionEnd}` is represented
by the dedicated `endOpt` variant (on the wire both are the single byte
255, per the spec: "End=255 has no length"). -/
inductive Option4 where
  | pad : Option4
  | endOpt : Option4
  | messageType (mt : Nat) : Option4
  | serverIdentifier (serverID : NetIP) : Option4
  | requestedIPAddress (requestedAddr : NetIP) : Option4
  | parameterRequestList (requestedOpts : List Nat) : Option4
  | generic (code : Nat) (data : List Nat) : Option4
  deriving DecidableEq, Repr

/-- The `Code()` of each variant. -/
def Option4.code : Option4 → Nat
  | .pad => OptionPad
  | .endOpt => OptionEnd
  | .messageType _ => OptionDHCPMessageType
  | .serverIdentifier _ => OptionServerIdentifier
  | .requestedIPAddress _ => OptionRequestedIPAddress
  | .parameterRequestList _ => OptionParameterRequestList
  | .generic c _ => c

/-- Modelled from the spec: each variant's `ToBytes`, the full TLV
`code, length, value` (§4.2 Serialization); `Pad` and `End` are single
bytes with no length. -/
def Option4.toWire : Option4 → List Nat
  | .pad => [OptionPad]
  | .endOpt => [OptionEnd]
  | .messageType mt => [OptionDHCPMessageType, 1, mt]
  | .serverIdentifier ip => [OptionServerIdentifier, ip.length] ++ ip
  | .requestedIPAddress ip => [OptionRequestedIPAddress, ip.length] ++ ip
  | .parameterRequestList codes => [OptionParameterRequestList, codes.length] ++ codes
  | .generic c data => [c, data.length] ++ data

/-- Serialization of an option list: concatenation in insertion order. -/
def optListBytes (opts : List Option4) : List Nat :=
  (opts.map Option4.toWire).flatten

/-- Modelled from the spec: the per-code variant parsers (§4.2 step 3):
dispatch by code, unknown codes produce `Generic`; `ServerIdentifier` and
`RequestedIPAddress` require exactly 4 value bytes, `MessageType` exactly
one. -/
def parseVariant (code : Nat) (payload : List Nat) : Except String Option4 :=
  if code = OptionDHCPMessageType then
    match payload with
    | [mt] => .ok (.messageType mt)
    | _ => .error "MessageType: payload must be 1 byte"
  else if code = OptionServerIdentifier then
    if payload.length = 4 then .ok (.serverIdentifier payload)
    else .error "ServerIdentifier: payload must be 4 bytes"
  else if code = OptionRequestedIPAddress then
    if payload.length = 4 then .ok (.requestedIPAddress payload)
    else .error "RequestedIPAddress: payload must be 4 bytes"
  else if code = OptionParameterRequestList then
    .ok (.parameterRequestList payload)
  else
    .ok (.generic code payload)

/-- Modelled from the spec: the option-list parser (§4.2 Parsing), with an
explicit fuel argument for structural recursion.  One unit of fuel is
spent per parsed option; since every option consumes at least one input
byte, fuel equal to the input length always suffices (see
`parseOptionList_fuel`). -/
def parseOptionsF : Nat → List Nat → Except String (List Option4)
  | _, [] => .ok []
  | 0, _ :: _ => .error "out of fuel"
  | fuel + 1, code :: rest =>
    if code = OptionPad then
      (parseOptionsF fuel rest).map (Option4.pad :: ·)
    else if code = OptionEnd then
      .ok [Option4.endOpt]
    else
      match rest with
      | [] => .error "short option: missing length byte"
      | len :: rest2 =>
        if len ≤ rest2.length then
          match parseVariant code (rest2.take len) with
          | .error e => .error e
          | .ok o => (parseOptionsF fuel (rest2.drop len)).map (o :: ·)
        else .error "short option: value bytes missing"

/-- The option-list parser: byte slice positioned at the first option. -/
def parseOptionList (data : List Nat) : Except String (List Option4) :=
  parseOptionsF data.length data

/-- The magic cookie `99.130.83.99`. -/
def MagicCookie : List Nat := [99, 130, 83, 99]

/-- Modelled from the spec: `OptionsFromBytes` is not under `src/`; its
callers show that it takes a slice beginning with the magic cookie
(`FromBytes` passes `data[236:]`, `New` passes `MagicCookie` itself and
expects an empty option list), checks and strips the cookie, then parses
the option TLVs (§3.1 invariant: the wire form after the header begins
with the 4-byte magic cookie, followed by the option TLVs). -/
def OptionsFromBytes (data : List Nat) : Except String (List Option4) :=
  if data.take 4 = MagicCookie then parseOptionList (data.drop 4)
  else .error "missing magic cookie"

/-- The `DHCPv4` structure (`dhcpv4.go`).  `clientHwAddr`,
`serverHostName` and `bootFileName` are fixed 16/64/128-byte arrays in Go;
here lists whose lengths are constrained by `wfFixed`. -/
structure DHCPv4 where
  opcode : Nat
  hwType : Nat
  hwAddrLen : Nat
  hopCount : Nat
  transactionID : Nat
  numSeconds : Nat
  flags : Nat
  clientIPAddr : NetIP
  yourIPAddr : NetIP
  serverIPAddr : NetIP
  gatewayIPAddr : NetIP
  clientHwAddr : List Nat
  serverHostName : List Nat
  bootFileName : List Nat
  options : List Option4
  deriving DecidableEq, Repr

/-- The Go array types force these lengths on every `DHCPv4` value. -/
def wfFixed (d : DHCPv4) : Prop :=
  d.clientHwAddr.length = 16 ∧ d.serverHostName.length = 64 ∧
    d.bootFileName.length = 128

instance (d : DHCPv4) : Decidable (wfFixed d) := by
  unfold wfFixed; infer_instance

/-- The fixed header written by `ToBytes`.  Each IP field is emitted via `To4()`;
when `To4()` is nil Go's `append` adds nothing (`ipTo4` returns `none`,
modelled by `getD []`). -/
def headerBytes (d : DHCPv4) : List Nat :=
  d.opcode % 256 :: d.hwType % 256 :: d.hwAddrLen % 256 :: d.hopCount % 256 ::
    (beBytes32 d.transactionID ++ (beBytes16 d.numSeconds ++ (beBytes16 d.flags ++
      ((ipTo4 d.clientIPAddr).getD [] ++ ((ipTo4 d.yourIPAddr).getD [] ++
        ((ipTo4 d.serverIPAddr).getD [] ++ ((ipTo4 d.gatewayIPAddr).getD [] ++
          (d.clientHwAddr.take 16 ++ (d.serverHostName.take 64 ++
            d.bootFileName.take 128)))))))))

/-- Go `ToBytes` (`dhcpv4.go:721`): header, then magic cookie, then each
option's wire bytes in insertion order. -/
def ToBytes (d : DHCPv4) : List Nat :=
  headerBytes d ++ (MagicCookie ++ optListBytes d.options)

/-- Go `FromBytes` (`dhcpv4.go:275`): fails on fewer than 236 bytes,
otherwise decodes the fixed header fields at their RFC 2131 offsets and
parses `data[236:]` (cookie plus options). -/
def FromBytes (data : List Nat) : Except String DHCPv4 :=
  if data.length < 236 then
    .error "Invalid DHCPv4 header: shorter than 236 bytes"
  else
    match OptionsFromBytes (data.drop 236) with
    | .error e => .error e
    | .ok opts =>
      .ok { opcode := data.getD 0 0
            hwType := data.getD 1 0
            hwAddrLen := data.getD 2 0
            hopCount := data.getD 3 0
            transactionID := beVal ((data.drop 4).take 4)
            numSeconds := beVal ((data.drop 8).take 2)
            flags := beVal ((data.drop 10).take 2)
            clientIPAddr := (data.drop 12).take 4
            yourIPAddr := (data.drop 16).take 4
            serverIPAddr := (data.drop 20).take 4
            gatewayIPAddr := (data.drop 24).take 4
            clientHwAddr := (data.drop 28).take 16
            serverHostName := (data.drop 44).take 64
            bootFileName := (data.drop 108).take 128
            options := opts }

/-- Go `AddOption` (`dhcpv4.go:609`): append the option; when the last
option's code is `OptionEnd`, insert the new option right before it. -/
def AddOption (d : DHCPv4) (o : Option4) : DHCPv4 :=
  match d.options.getLast? with
  | some last =>
    if last.code = OptionEnd then
      { d with options := d.options.dropLast ++ [o, last] }
    else { d with options := d.options ++ [o] }
  | none => { d with options := d.options ++ [o] }

/-- Go `GetOneOption` (`dhcpv4.go:577`): the first option with the given
code, `none` when absent. -/
def GetOneOption (d : DHCPv4) (code : Nat) : Option Option4 :=
  d.options.find? (fun o => o.code = code)

/-- Go `MessageType` (`dhcpv4.go:621`): the value carried by the first
option with code 53.  Go type-asserts `*OptMessageType`; any other option
carrying code 53 would panic there (this cannot arise from parsing, where
code 53 always dispatches to the `MessageType` variant); that case is
modelled as `none`. -/
def MessageTypeOf (d : DHCPv4) : Option Nat :=
  match d.options.find? (fun o => o.code = OptionDHCPMessageType) with
  | some (.messageType mt) => some mt
  | _ => none

/-- Go `IsBroadcast` (`dhcpv4.go:416`): bit 15 of the flags. -/
def IsBroadcast (d : DHCPv4) : Bool := d.flags &&& 32768 == 32768

/-- Go `SetBroadcast` (`dhcpv4.go:421`): `flags |= 0x8000`. -/
def SetBroadcast (d : DHCPv4) : DHCPv4 := { d with flags := d.flags ||| 32768 }

/-- Go `SetUnicast` (`dhcpv4.go:431`): `flags &= ^0x8000` (on `uint16`). -/
def SetUnicast (d : DHCPv4) : DHCPv4 := { d with flags := d.flags &&& 32767 }

/-- Go `SetHwAddrLen` (`dhcpv4.go:353`): values above 16 are truncated
to 16 (with a warning). -/
def SetHwAddrLen (d : DHCPv4) (n : Nat) : DHCPv4 :=
  { d with hwAddrLen := if 16 < n then 16 else n }

/-- Go `SetClientHwAddr` (`dhcpv4.go:490`): copy at most 16 bytes and
zero-pad the rest of the fixed 16-byte field. -/
def SetClientHwAddr (d : DHCPv4) (hw : List Nat) : DHCPv4 :=
  { d with clientHwAddr := hw.take 16 ++ List.replicate (16 - hw.length) 0 }

/-- Go `SetClientIPAddr` (`dhcpv4.go:441`): stores the given `net.IP`
unchanged, whatever its length. -/
def SetClientIPAddr (d : DHCPv4) (ip : NetIP) : DHCPv4 :=
  { d with clientIPAddr := ip }

/-- Go `New` (`dhcpv4.go:103`), with the randomly generated transaction id
passed explicitly.  `OptionsFromBytes(MagicCookie)` yields the empty
option list; then the End option (`OptionGeneric{OptionCode: OptionEnd}`)
is added, so the initial option list is `[End]`.  The IP fields are
`net.IPv4zero`, the 16-byte form of 0.0.0.0. -/
def New (tid : Nat) : DHCPv4 :=
  AddOption
    { opcode := OpcodeBootRequest, hwType := 1, hwAddrLen := 6, hopCount := 0
      transactionID := tid, numSeconds := 0, flags := 0
      clientIPAddr := IPv4zero, yourIPAddr := IPv4zero
      serverIPAddr := IPv4zero, gatewayIPAddr := IPv4zero
      clientHwAddr := List.replicate 16 0
      serverHostName := List.replicate 64 0
      bootFileName := List.replicate 128 0
      options := [] }
    Option4.endOpt

/-- Go `NewInform` (`dhcpv4.go:201`): `New`, then opcode/hwtype/hwaddr
setters, `SetClientIPAddr(localIP)`, and `AddOption(MessageType(Inform))`.
Its Go doc comment says "It does NOT put a DHCP End option at the end". -/
def NewInform (tid : Nat) (hwaddr : List Nat) (localIP : NetIP) : DHCPv4 :=
  let d := New tid
  let d := { d with opcode := OpcodeBootRequest, hwType := 1 }
  let d := SetHwAddrLen d hwaddr.length
  let d := SetClientHwAddr d hwaddr
  let d := SetClientIPAddr d localIP
  AddOption d (.messageType MessageTypeInform)

/-- The `for` loop over `offer.options` in `NewRequestFromOffer`
(`dhcpv4.go:234`): every option with code `OptionServerIdentifier`
overwrites `serverIP`, so the last one wins.  (Go type-asserts
`*OptServerIdentifier` after the code check; a `generic` option carrying
code 54 would panic there, a case excluded by hypothesis where it
matters.) -/
def lastServerID (opts : List Option4) : Option NetIP :=
  opts.foldl
    (fun acc o =>
      match o with
      | .serverIdentifier ip => some ip
      | _ => acc)
    none

/-- Go `NewRequestFromOffer` (`dhcpv4.go:217`): copies header fields from
the offer, fails (returning no message) when no ServerIdentifier option is
found, otherwise sets `serverIPAddr`, adds `MessageType(Request)`,
`RequestedIPAddress(offer.yourIPAddr)`, `ServerIdentifier(serverIP)`, and
applies the modifiers left to right. -/
def NewRequestFromOffer (tid : Nat) (offer : DHCPv4)
    (modifiers : List (DHCPv4 → DHCPv4)) : Except String DHCPv4 :=
  let d := New tid
  let d := { d with opcode := OpcodeBootRequest, hwType := offer.hwType }
  let d := SetHwAddrLen d offer.hwAddrLen
  let d := SetClientHwAddr d offer.clientHwAddr
  let d := { d with transactionID := offer.transactionID }
  let d := if IsBroadcast offer then SetBroadcast d else SetUnicast d
  match lastServerID offer.options with
  | none => .error "Missing Server IP Address in DHCP Offer"
  | some serverIP =>
    let d := { d with serverIPAddr := serverIP }
    let d := AddOption d (.messageType MessageTypeRequest)
    let d := AddOption d (.requestedIPAddress offer.yourIPAddr)
    let d := AddOption d (.serverIdentifier serverIP)
    .ok (modifiers.foldl (fun acc m => m acc) d)

/-- Go mutates the first `OptParameterRequestList` in place; here the
first option with code 55 is replaced by a ParameterRequestList with the
new code list. -/
def setFirst55 : List Option4 → List Nat → List Option4
  | [], _ => []
  | o :: rest, cs =>
    if o.code = OptionParameterRequestList then
      Option4.parameterRequestList cs :: rest
    else o :: setFirst55 rest cs

/-- The requested-options update of `WithNetboot` (`modifiers.go:33`):
the found flags are both computed over the original list, then
`TFTPServerName` (66) and `BootfileName` (67) are appended, each only
when it was not found. -/
def netbootCodes (cs : List Nat) : List Nat :=
  let cs1 := if OptionTFTPServerName ∈ cs then cs
    else cs ++ [OptionTFTPServerName]
  if OptionBootfileName ∈ cs then cs1 else cs1 ++ [OptionBootfileName]

/-- Go `WithNetboot` (`modifiers.go:23`): scans the first parameter-request
list for `TFTPServerName` (66) and `BootfileName` (67), appends each one
that was not found, and creates the list `[66, 67]` (via `AddOption`)
when no such option exists.  (Go type-asserts
`*OptParameterRequestList`; a `generic` option with code 55 would panic,
a case excluded by hypothesis where it matters and modelled as the
identity here.) -/
def WithNetboot (d : DHCPv4) : DHCPv4 :=
  match GetOneOption d OptionParameterRequestList with
  | none =>
    AddOption d
      (.parameterRequestList [OptionTFTPServerName, OptionBootfileName])
  | some (.parameterRequestList cs) =>
    { d with options := setFirst55 d.options (netbootCodes cs) }
  | some _ => d

/-- The code list of the first parameter-request-list option, when one
exists (the view of the message that `WithNetboot` reads and writes). -/
def firstPRLCodes (d : DHCPv4) : Option (List Nat) :=
  match GetOneOption d OptionParameterRequestList with
  | some (.parameterRequestList cs) => some cs
  | _ => none

/-- The receive loop of `BroadcastSendReceive` (`client.go:203`),
modelled over the list of datagrams that arrive before the deadline, in
arrival order.  A datagram is accepted when it parses, its transaction id
equals the sent packet's, its opcode is `BOOTREPLY`, and either no
specific message type is expected (`MessageTypeNone`) or its message type
matches; any other datagram is skipped and the loop continues.  An empty
remainder is the deadline ("timed out while listening for replies"): no
message is returned.  A datagram that fails to parse kills the receiver
(the code checks the wrong error variable and then dereferences the nil
message), so no message is returned in that case either. -/
def receiveLoop (tid expected : Nat) : List (List Nat) → Option DHCPv4
  | [] => none
  | buf :: rest =>
    match FromBytes buf with
    | .error _ => none
    | .ok response =>
      if response.transactionID ≠ tid then receiveLoop tid expected rest
      else if response.opcode ≠ OpcodeBootReply then receiveLoop tid expected rest
      else if expected = MessageTypeNone then some response
      else if MessageTypeOf response = some expected then some response
      else receiveLoop tid expected rest

/-- The DHCPv6 `OptIAPrefix` payload fields (RFC 3633).  `subOptions` is
carried as raw bytes, as the tests show (`SetOptions`/`Options` store and
return a plain byte slice). -/
structure OptIAPrefixV6 where
  preferredLifetime : Nat
  validLifetime : Nat
  prefixLength : Nat
  prefixBytes : List Nat
  subOptions : List Nat
  deriving DecidableEq, Repr

/-- Modelled from the spec: `ParseOptIAPrefix` is not under `src/` (only
its tests are).  Per §3.2 the payload layout is `preferred_lifetime:u32,
valid_lifetime:u32, prefix_length:u8, ipv6_prefix:16 bytes, sub_options:
remainder`, big-endian, and a payload shorter than 25 bytes is a parse
error. -/
def parseIAPrefixOpt (buf : List Nat) : Except String OptIAPrefixV6 :=
  if buf.length < 25 then
    .error "OptIAPrefix: shorter than 25 bytes"
  else
    .ok { preferredLifetime := beVal (buf.take 4)
          validLifetime := beVal ((buf.drop 4).take 4)
          prefixLength := buf.getD 8 0
          prefixBytes := (buf.drop 9).take 16
          subOptions := buf.drop 25 }

/-- Well-formed option: the invariants the Go option types maintain (byte
fields below 256, the 4-byte payloads of `ServerIdentifier` and
`RequestedIPAddress`, lengths that fit the one-byte length field) and, for
`generic`, a code that none of the modelled variants claims. -/
def wfOpt : Option4 → Prop
  | .pad => True
  | .endOpt => True
  | .messageType mt => mt < 256
  | .serverIdentifier ip => ip.length = 4 ∧ ∀ b ∈ ip, b < 256
  | .requestedIPAddress ip => ip.length = 4 ∧ ∀ b ∈ ip, b < 256
  | .parameterRequestList cs => cs.length < 256 ∧ ∀ b ∈ cs, b < 256
  | .generic c data =>
      c ≠ 0 ∧ c ≠ 255 ∧ c ≠ 53 ∧ c ≠ 54 ∧ c ≠ 50 ∧ c ≠ 55 ∧ c < 256 ∧
        data.length < 256 ∧ ∀ b ∈ data, b < 256

/-- Well-formed option list: every option well formed and `End`, when
present, only in the last position (options after `End` are dropped by the
parser, so they cannot round-trip). -/
def wfOptList : List Option4 → Prop
  | [] => True
  | o :: rest => wfOpt o ∧ (rest = [] ∨ (o ≠ .endOpt ∧ wfOptList rest))

/-- A legal DHCPv4 message: numeric fields within their Go integer types,
the four IP fields 4-byte IPv4 addresses, the fixed-size byte arrays at
their declared lengths, and a well-formed option list. -/
def LegalMessage (d : DHCPv4) : Prop :=
  d.opcode < 256 ∧ d.hwType < 256 ∧ d.hwAddrLen < 256 ∧ d.hopCount < 256 ∧
    d.transactionID < 4294967296 ∧ d.numSeconds < 65536 ∧ d.flags < 65536 ∧
    d.clientIPAddr.length = 4 ∧ d.yourIPAddr.length = 4 ∧
    d.serverIPAddr.length = 4 ∧ d.gatewayIPAddr.length = 4 ∧
    wfFixed d ∧ wfOptList d.options

/-- A concrete legal message (4-byte IP fields), used as witness input. -/
def mWitness : DHCPv4 :=
  { opcode := 1, hwType := 1, hwAddrLen := 6, hopCount := 0
    transactionID := 305419896, numSeconds := 0, flags := 32768
    clientIPAddr := [0, 0, 0, 0], yourIPAddr := [192, 168, 0, 5]
    serverIPAddr := [192, 168, 0, 1], gatewayIPAddr := [0, 0, 0, 0]
    clientHwAddr := [0, 17, 34, 51, 68, 85, 0, 0, 0, 0, 0, 0, 0, 0, 0, 0]
    serverHostName := List.replicate 64 0
    bootFileName := List.replicate 128 0
    options := [.messageType 2, .serverIdentifier [192, 168, 0, 1], .endOpt] }

/-- The same message with the client IP stored in the 16-byte
(IPv4-mapped) form that Go's `net.IPv4()` and `net.IPv4zero` produce.
Still IPv4-convertible (`To4()` succeeds). -/
def mCex1 : DHCPv4 :=
  { mWitness with
      clientIPAddr := [0, 0, 0, 0, 0, 0, 0, 0, 0, 0, 255, 255, 10, 0, 0, 9] }

/-- An offer whose options carry no ServerIdentifier code. -/
def offerNoSid : DHCPv4 := { mWitness with options := [Option4.endOpt] }

/-- An offer carrying two distinct ServerIdentifier options. -/
def offerTwoSid : DHCPv4 :=
  { mWitness with options := [Option4.serverIdentifier [1, 1, 1, 1],
      Option4.serverIdentifier [2, 2, 2, 2], Option4.endOpt] }

/-- A message whose parameter request list already holds code 66 twice. -/
def dPrlCex : DHCPv4 :=
  { mWitness with options := [Option4.parameterRequestList [66, 66],
      Option4.endOpt] }

/-- A reply to `mWitness`'s transaction: same transaction id, opcode
`BOOTREPLY`, message type Offer. -/
def mReply : DHCPv4 := { mWitness with opcode := 2 }

/-- A stray reply with a different transaction id. -/
def mStray : DHCPv4 := { mReply with transactionID := 1 }

/-- The 25-byte test vector of `TestOptIAPrefix` (scenario S1). -/
def bufS1 : List Nat :=
  [170, 187, 204, 221, 238, 255, 0, 17, 36,
    0, 0, 0, 0, 0, 0, 0, 0, 0, 0, 0, 0, 0, 0, 0, 1]

/-- The 16-byte truncated vector of
`TestOptIAPrefixParseInvalidTooShort` (scenario S3). -/
def bufS3 : List Nat :=
  [170, 187, 204, 221, 238, 255, 0, 17, 36, 0, 0, 0, 0, 0, 0, 0]

theorem take_append_eq {α : Type} (l1 l2 : List α) {n : Nat}
    (h : l1.length = n) : (l1 ++ l2).take n = l1 := by
  subst h; simp

theorem drop_append_eq {α : Type} (l1 l2 : List α) {n : Nat}
    (h : l1.length = n) : (l1 ++ l2).drop n = l2 := by
  subst h; simp

theorem beBytes32_length (n : Nat) : (beBytes32 n).length = 4 := rfl

theorem beBytes16_length (n : Nat) : (beBytes16 n).length = 2 := rfl

theorem beVal_beBytes32 (n : Nat) (h : n < 4294967296) :
    beVal (beBytes32 n) = n := by
  simp only [beVal, beBytes32, List.foldl]
  omega

theorem beVal_beBytes16 (n : Nat) (h : n < 65536) :
    beVal (beBytes16 n) = n := by
  simp only [beVal, beBytes16, List.foldl]
  omega

theorem ipTo4_of_length4 {ip : NetIP} (h : ip.length = 4) :
    ipTo4 ip = some ip := by
  simp [ipTo4, h]

theorem ipTo4_some_length {ip l : NetIP} (h : ipTo4 ip = some l) :
    l.length = 4 := by
  unfold ipTo4 at h
  split at h
  · cases h; omega
  · split at h
    · cases h
      simp only [List.length_drop]
      omega
    · cases h

theorem toWire_length_pos (o : Option4) : 1 ≤ o.toWire.length := by
  cases o <;> simp [Option4.toWire]

/-- The parse result does not depend on the fuel, as long as the fuel is
at least the input length (each step consumes at least one byte and one
unit of fuel). -/
theorem parseOptionsF_fuel :
    ∀ (fuel fuel' : Nat) (l : List Nat), l.length ≤ fuel → l.length ≤ fuel' →
      parseOptionsF fuel l = parseOptionsF fuel' l := by
  intro fuel
  induction fuel with
  | zero =>
    intro fuel' l h _
    have : l = [] := List.eq_nil_of_length_eq_zero (Nat.le_zero.mp h)
    subst this
    cases fuel' <;> rfl
  | succ f ih =>
    intro fuel' l h h'
    cases l with
    | nil => cases fuel' <;> rfl
    | cons c rest =>
      cases fuel' with
      | zero => simp at h'
      | succ f' =>
        simp only [parseOptionsF, OptionPad, OptionEnd]
        have hrest : rest.length ≤ f := by
          simp only [List.length_cons] at h; omega
        have hrest' : rest.length ≤ f' := by
          simp only [List.length_cons] at h'; omega
        by_cases hc0 : c = 0
        · simp only [if_pos hc0, ih f' rest hrest hrest']
        · simp only [if_neg hc0]
          by_cases hc255 : c = 255
          · simp only [if_pos hc255]
          · simp only [if_neg hc255]
            cases rest with
            | nil => rfl
            | cons len rest2 =>
              by_cases hlen : len ≤ rest2.length
              · simp only [if_pos hlen]
                cases hv : parseVariant c (rest2.take len) with
                | error e => rfl
                | ok o =>
                  have hd : (rest2.drop len).length ≤ f := by
                    simp only [List.length_drop]
                    simp only [List.length_cons] at h
                    omega
                  have hd' : (rest2.drop len).length ≤ f' := by
                    simp only [List.length_drop]
                    simp only [List.length_cons] at h'
                    omega
                  rw [ih f' (rest2.drop len) hd hd']
              · simp only [if_neg hlen]

/-- One parse step: a well-formed non-`End` option at the front of the
buffer is parsed back and the parser continues on the remaining bytes. -/
theorem parse_step (o : Option4) (ho : wfOpt o) (hne : o ≠ .endOpt)
    (f : Nat) (tail : List Nat) :
    parseOptionsF (f + 1) (o.toWire ++ tail) =
      (parseOptionsF f tail).map (o :: ·) := by
  cases o with
  | pad =>
    show parseOptionsF (f + 1) (0 :: tail) = _
    simp [parseOptionsF, OptionPad]
  | endOpt => exact absurd rfl hne
  | messageType mt =>
    show parseOptionsF (f + 1) (53 :: 1 :: mt :: tail) = _
    simp [parseOptionsF, parseVariant, OptionPad, OptionEnd,
      OptionDHCPMessageType]
  | serverIdentifier ip =>
    obtain ⟨hlen, -⟩ := ho
    show parseOptionsF (f + 1) (54 :: ip.length :: (ip ++ tail)) = _
    simp [parseOptionsF, parseVariant, OptionPad, OptionEnd,
      OptionDHCPMessageType, OptionServerIdentifier, hlen,
      take_append_eq ip tail hlen, drop_append_eq ip tail hlen]
  | requestedIPAddress ip =>
    obtain ⟨hlen, -⟩ := ho
    show parseOptionsF (f + 1) (50 :: ip.length :: (ip ++ tail)) = _
    simp [parseOptionsF, parseVariant, OptionPad, OptionEnd,
      OptionDHCPMessageType, OptionServerIdentifier,
      OptionRequestedIPAddress, hlen,
      take_append_eq ip tail hlen, drop_append_eq ip tail hlen]
  | parameterRequestList cs =>
    show parseOptionsF (f + 1) (55 :: cs.length :: (cs ++ tail)) = _
    simp [parseOptionsF, parseVariant, OptionPad, OptionEnd,
      OptionDHCPMessageType, OptionServerIdentifier,
      OptionRequestedIPAddress, OptionParameterRequestList,
      take_append_eq cs tail rfl, drop_append_eq cs tail rfl]
  | generic c data =>
    obtain ⟨h0, h255, h53, h54, h50, h55, -, -, -⟩ := ho
    show parseOptionsF (f + 1) (c :: data.length :: (data ++ tail)) = _
    simp [parseOptionsF, parseVariant, OptionPad, OptionEnd,
      OptionDHCPMessageType, OptionServerIdentifier,
      OptionRequestedIPAddress, OptionParameterRequestList,
      h0, h255, h53, h54, h50, h55,
      take_append_eq data tail rfl, drop_append_eq data tail rfl]

/-- Parsing inverts serialization for a well-formed option list. -/
theorem parseOptionsF_roundtrip :
    ∀ (opts : List Option4), wfOptList opts →
      ∀ f, (optListBytes opts).length ≤ f →
        parseOptionsF f (optListBytes opts) = .ok opts := by
  intro opts
  induction opts with
  | nil =>
    intro _ f _
    cases f <;> rfl
  | cons o rest ih =>
    intro hwf f hf
    obtain ⟨ho, hrest⟩ := hwf
    have hbytes : optListBytes (o :: rest) = o.toWire ++ optListBytes rest := by
      simp [optListBytes]
    rw [hbytes] at hf ⊢
    have hpos := toWire_length_pos o
    rw [List.length_append] at hf
    cases f with
    | zero => omega
    | succ f' =>
      rcases hrest with hnil | ⟨hne, hwrest⟩
      · subst hnil
        by_cases hend : o = .endOpt
        · subst hend
          show parseOptionsF (f' + 1) (255 :: optListBytes []) = _
          simp [optListBytes, parseOptionsF, OptionEnd, OptionPad]
        · rw [parse_step o ho hend f' (optListBytes [])]
          have hnilb : optListBytes ([] : List Option4) = [] := rfl
          rw [hnilb]
          cases f' <;> rfl
      · rw [parse_step o ho hne f' (optListBytes rest)]
        rw [ih hwrest f' (by omega)]
        rfl

/-- Parsing (with the magic cookie in front, as `FromBytes` passes it)
inverts serialization for a well-formed option list. -/
theorem OptionsFromBytes_roundtrip (opts : List Option4)
    (hwf : wfOptList opts) :
    OptionsFromBytes (MagicCookie ++ optListBytes opts) = .ok opts := by
  unfold OptionsFromBytes
  rw [@take_append_eq Nat MagicCookie (optListBytes opts) 4 rfl,
    @drop_append_eq Nat MagicCookie (optListBytes opts) 4 rfl,
    if_pos rfl]
  exact parseOptionsF_roundtrip opts hwf _ le_rfl

theorem drop_chain (j : Nat) {data pre rest : List Nat} {k n : Nat}
    (h : data.drop k = pre ++ rest) (hpre : pre.length = n)
    (hj : j = k + n) : data.drop j = rest := by
  rw [hj, ← List.drop_drop, h, drop_append_eq _ _ hpre]

theorem slice_take {data pre rest : List Nat} {k n : Nat}
    (h : data.drop k = pre ++ rest) (hpre : pre.length = n) :
    (data.drop k).take n = pre := by
  rw [h]
  exact take_append_eq _ _ hpre

/-- Slices of a serialized DHCPv4 message at the RFC 2131 offsets: the
fixed segment lengths pin down the position of every header field and of
the byte 236 where the options (cookie first) begin. -/
theorem header_slices (x1 x2 x3 x4 : Nat)
    (B32 B16a B16b c4 y4 s4 g4 hw sn bf T data : List Nat)
    (hdata : data = x1 :: x2 :: x3 :: x4 :: (B32 ++ (B16a ++ (B16b ++
      (c4 ++ (y4 ++ (s4 ++ (g4 ++ (hw ++ (sn ++ (bf ++ T)))))))))))
    (hB32 : B32.length = 4) (hB16a : B16a.length = 2)
    (hB16b : B16b.length = 2) (hc4 : c4.length = 4) (hy4 : y4.length = 4)
    (hs4 : s4.length = 4) (hg4 : g4.length = 4) (hhw : hw.length = 16)
    (hsn : sn.length = 64) (hbf : bf.length = 128) :
    data.getD 0 0 = x1 ∧ data.getD 1 0 = x2 ∧ data.getD 2 0 = x3 ∧
      data.getD 3 0 = x4 ∧
      (data.drop 4).take 4 = B32 ∧ (data.drop 8).take 2 = B16a ∧
      (data.drop 10).take 2 = B16b ∧ (data.drop 12).take 4 = c4 ∧
      (data.drop 16).take 4 = y4 ∧ (data.drop 20).take 4 = s4 ∧
      (data.drop 24).take 4 = g4 ∧ (data.drop 28).take 16 = hw ∧
      (data.drop 44).take 64 = sn ∧ (data.drop 108).take 128 = bf ∧
      data.drop 236 = T ∧ 236 ≤ data.length := by
  have d4 : data.drop 4 = B32 ++ (B16a ++ (B16b ++ (c4 ++ (y4 ++ (s4 ++
      (g4 ++ (hw ++ (sn ++ (bf ++ T))))))))) := by
    rw [hdata]
    rfl
  have d8 := drop_chain 8 d4 hB32 (by norm_num)
  have d10 := drop_chain 10 d8 hB16a (by norm_num)
  have d12 := drop_chain 12 d10 hB16b (by norm_num)
  have d16 := drop_chain 16 d12 hc4 (by norm_num)
  have d20 := drop_chain 20 d16 hy4 (by norm_num)
  have d24 := drop_chain 24 d20 hs4 (by norm_num)
  have d28 := drop_chain 28 d24 hg4 (by norm_num)
  have d44 := drop_chain 44 d28 hhw (by norm_num)
  have d108 := drop_chain 108 d44 hsn (by norm_num)
  have d236 := drop_chain 236 d108 hbf (by norm_num)
  have hlen : 236 ≤ data.length := by
    have := congrArg List.length d108
    simp only [List.length_drop, List.length_append, hbf] at this
    omega
  exact ⟨by rw [hdata]; rfl, by rw [hdata]; rfl, by rw [hdata]; rfl,
    by rw [hdata]; rfl,
    slice_take d4 hB32, slice_take d8 hB16a, slice_take d10 hB16b,
    slice_take d12 hc4, slice_take d16 hy4, slice_take d20 hs4,
    slice_take d24 hg4, slice_take d28 hhw, slice_take d44 hsn,
    slice_take d108 hbf, d236, hlen⟩

theorem take_eq_of_length_eq {α : Type} {l : List α} {n : Nat}
    (h : l.length = n) : l.take n = l := by
  subst h
  exact List.take_length l

/-- Under a legal message's length side conditions, `ToBytes` is the
explicit cons/append normal form used by `header_slices`. -/
theorem ToBytes_explicit (m : DHCPv4) (h : LegalMessage m) :
    ToBytes m = m.opcode :: m.hwType :: m.hwAddrLen :: m.hopCount ::
      (beBytes32 m.transactionID ++ (beBytes16 m.numSeconds ++
        (beBytes16 m.flags ++ (m.clientIPAddr ++ (m.yourIPAddr ++
          (m.serverIPAddr ++ (m.gatewayIPAddr ++ (m.clientHwAddr ++
            (m.serverHostName ++ (m.bootFileName ++
              (MagicCookie ++ optListBytes m.options))))))))))) := by
  obtain ⟨hop, hht, hhl, hhc, htid, hns, hfl, hcip, hyip, hsip, hgip,
    ⟨hhw, hsn, hbf⟩, hopts⟩ := h
  unfold ToBytes headerBytes
  rw [ipTo4_of_length4 hcip, ipTo4_of_length4 hyip, ipTo4_of_length4 hsip,
    ipTo4_of_length4 hgip]
  simp [Nat.mod_eq_of_lt hop, Nat.mod_eq_of_lt hht, Nat.mod_eq_of_lt hhl,
    Nat.mod_eq_of_lt hhc, take_eq_of_length_eq hhw,
    take_eq_of_length_eq hsn, take_eq_of_length_eq hbf]

/-- Claim C1 (amended): for every legal message whose four IP fields are
stored as 4-byte IPv4 addresses, parsing the serialization round-trips
field for field, including the option list in insertion order. -/
theorem FromBytes_ToBytes (m : DHCPv4) (h : LegalMessage m) :
    FromBytes (ToBytes m) = .ok m := by
  obtain ⟨hop, hht, hhl, hhc, htid, hns, hfl, hcip, hyip, hsip, hgip,
    ⟨hhw, hsn, hbf⟩, hopts⟩ := h
  obtain ⟨g0, g1, g2, g3, s4, s8, s10, s12, s16, s20, s24, s28, s44,
    s108, s236, hlen⟩ :=
    header_slices m.opcode m.hwType m.hwAddrLen m.hopCount
      (beBytes32 m.transactionID) (beBytes16 m.numSeconds)
      (beBytes16 m.flags) m.clientIPAddr m.yourIPAddr m.serverIPAddr
      m.gatewayIPAddr m.clientHwAddr m.serverHostName m.bootFileName
      (MagicCookie ++ optListBytes m.options) (ToBytes m)
      (ToBytes_explicit m ⟨hop, hht, hhl, hhc, htid, hns, hfl, hcip, hyip,
        hsip, hgip, ⟨hhw, hsn, hbf⟩, hopts⟩)
      (beBytes32_length _) (beBytes16_length _) (beBytes16_length _)
      hcip hyip hsip hgip hhw hsn hbf
  have hOpts : OptionsFromBytes ((ToBytes m).drop 236) = .ok m.options := by
    rw [s236]
    exact OptionsFromBytes_roundtrip m.options hopts
  simp only [FromBytes, if_neg (by omega : ¬(ToBytes m).length < 236), hOpts]
  rw [g0, g1, g2, g3, s4, beVal_beBytes32 _ htid, s8, beVal_beBytes16 _ hns,
    s10, beVal_beBytes16 _ hfl, s12, s16, s20, s24, s28, s44, s108]

/-- Witness for C1: a concrete legal message round-trips. -/
theorem FromBytes_ToBytes_witness :
    LegalMessage mWitness ∧ FromBytes (ToBytes mWitness) = .ok mWitness := by
  have hleg : LegalMessage mWitness := by
    simp [LegalMessage, mWitness, wfFixed, wfOptList, wfOpt]
  exact ⟨hleg, FromBytes_ToBytes mWitness hleg⟩

/-- Counterexample to C1 as stated: a message that is legal in the
claim's sense (well-formed header fields, four IPv4-convertible address
fields, well-formed options) for which `FromBytes (ToBytes m)` succeeds
but is not equal to `m` field for field: serialization goes through
`To4()`, so the parsed message holds the 4-byte form `[10,0,0,9]` while
`m` holds the 16-byte mapped form. -/
theorem FromBytes_ToBytes_cex :
    (ipTo4 mCex1.clientIPAddr).isSome = true ∧
      (ipTo4 mCex1.yourIPAddr).isSome = true ∧
      (ipTo4 mCex1.serverIPAddr).isSome = true ∧
      (ipTo4 mCex1.gatewayIPAddr).isSome = true ∧
      mCex1.opcode < 256 ∧ mCex1.transactionID < 4294967296 ∧
      wfFixed mCex1 ∧ wfOptList mCex1.options ∧
      FromBytes (ToBytes mCex1) ≠ .ok mCex1 := by
  refine ⟨by decide, by decide, by decide, by decide, by decide, by decide,
    by decide, by simp [mCex1, mWitness, wfOptList, wfOpt], ?_⟩
  have heval : FromBytes (ToBytes mCex1) =
      .ok { mCex1 with clientIPAddr := [10, 0, 0, 9] } := by
    set_option maxRecDepth 100000 in rfl
  rw [heval]
  intro hcon
  injection hcon with h
  exact absurd h (by decide)

/-- The header length is 236 whenever the four IP fields convert to IPv4
and the fixed arrays have their Go lengths. -/
theorem headerBytes_length (m : DHCPv4)
    (hc : (ipTo4 m.clientIPAddr).isSome = true)
    (hy : (ipTo4 m.yourIPAddr).isSome = true)
    (hs : (ipTo4 m.serverIPAddr).isSome = true)
    (hg : (ipTo4 m.gatewayIPAddr).isSome = true)
    (hf : wfFixed m) : (headerBytes m).length = 236 := by
  obtain ⟨c4, hc4⟩ := Option.isSome_iff_exists.mp hc
  obtain ⟨y4, hy4⟩ := Option.isSome_iff_exists.mp hy
  obtain ⟨s4, hs4⟩ := Option.isSome_iff_exists.mp hs
  obtain ⟨g4, hg4⟩ := Option.isSome_iff_exists.mp hg
  obtain ⟨h16, h64, h128⟩ := hf
  have lc := ipTo4_some_length hc4
  have ly := ipTo4_some_length hy4
  have ls := ipTo4_some_length hs4
  have lg := ipTo4_some_length hg4
  simp [headerBytes, hc4, hy4, hs4, hg4, beBytes32_length, beBytes16_length,
    List.length_append, List.length_take, lc, ly, ls, lg, h16, h64, h128]

/-- Claim C2: for a message with IPv4-convertible address fields,
`ToBytes` yields at least 240 bytes, the first 236 bytes are the fixed
header, and bytes `[236..240]` are the magic cookie `{99,130,83,99}`,
whatever the (non-empty) option list holds. -/
theorem ToBytes_header_cookie (m : DHCPv4)
    (hc : (ipTo4 m.clientIPAddr).isSome = true)
    (hy : (ipTo4 m.yourIPAddr).isSome = true)
    (hs : (ipTo4 m.serverIPAddr).isSome = true)
    (hg : (ipTo4 m.gatewayIPAddr).isSome = true)
    (hf : wfFixed m) (_hne : m.options ≠ []) :
    240 ≤ (ToBytes m).length ∧ (ToBytes m).take 236 = headerBytes m ∧
      ((ToBytes m).drop 236).take 4 = MagicCookie := by
  have hh := headerBytes_length m hc hy hs hg hf
  refine ⟨?_, ?_, ?_⟩
  · show 240 ≤ (headerBytes m ++ (MagicCookie ++ optListBytes m.options)).length
    simp [List.length_append, hh, MagicCookie]
    omega
  · exact take_append_eq _ _ hh
  · show ((headerBytes m ++ (MagicCookie ++ optListBytes m.options)).drop 236).take 4 = _
    rw [drop_append_eq _ _ hh]
    exact @take_append_eq Nat MagicCookie (optListBytes m.options) 4 rfl

/-- Witness for C2 at the concrete message `mWitness`. -/
theorem ToBytes_header_cookie_witness :
    240 ≤ (ToBytes mWitness).length ∧
      (ToBytes mWitness).take 236 = headerBytes mWitness ∧
      ((ToBytes mWitness).drop 236).take 4 = MagicCookie :=
  ToBytes_header_cookie mWitness (by decide) (by decide) (by decide)
    (by decide) (by decide) (by decide)

/-- Claim C8: every input shorter than 236 bytes makes `FromBytes` return
a parse error (never a message). -/
theorem FromBytes_short (data : List Nat) (h : data.length < 236) :
    FromBytes data = .error "Invalid DHCPv4 header: shorter than 236 bytes" := by
  unfold FromBytes
  rw [if_pos h]

/-- Witness for C8 at a concrete short input. -/
theorem FromBytes_short_witness :
    ([7, 7, 7] : List Nat).length < 236 ∧
      FromBytes [7, 7, 7] =
        .error "Invalid DHCPv4 header: shorter than 236 bytes" :=
  ⟨by decide, FromBytes_short [7, 7, 7] (by decide)⟩

/-- Claim C10: the setter accepts any `net.IP`, and when a field does not
convert to IPv4 (`To4()` nil), `ToBytes` silently emits a header 4 bytes
short of 236. -/
theorem header_short_of_bad_ip (m : DHCPv4) (ip : NetIP)
    (hbad : ipTo4 ip = none)
    (hy : (ipTo4 m.yourIPAddr).isSome = true)
    (hs : (ipTo4 m.serverIPAddr).isSome = true)
    (hg : (ipTo4 m.gatewayIPAddr).isSome = true)
    (hf : wfFixed m) :
    (SetClientIPAddr m ip).clientIPAddr = ip ∧
      (headerBytes (SetClientIPAddr m ip)).length = 232 := by
  obtain ⟨y4, hy4⟩ := Option.isSome_iff_exists.mp hy
  obtain ⟨s4, hs4⟩ := Option.isSome_iff_exists.mp hs
  obtain ⟨g4, hg4⟩ := Option.isSome_iff_exists.mp hg
  obtain ⟨h16, h64, h128⟩ := hf
  have ly := ipTo4_some_length hy4
  have ls := ipTo4_some_length hs4
  have lg := ipTo4_some_length hg4
  refine ⟨rfl, ?_⟩
  simp [headerBytes, SetClientIPAddr, hbad, hy4, hs4, hg4, beBytes32_length,
    beBytes16_length, List.length_append, List.length_take, ly, ls, lg,
    h16, h64, h128]

/-- Witness for C10: a 3-byte `net.IP` is not IPv4-convertible and
shortens the header. -/
theorem header_short_of_bad_ip_witness :
    (SetClientIPAddr mWitness [1, 2, 3]).clientIPAddr = [1, 2, 3] ∧
      (headerBytes (SetClientIPAddr mWitness [1, 2, 3])).length = 232 :=
  header_short_of_bad_ip mWitness [1, 2, 3] (by decide) (by decide)
    (by decide) (by decide) (by decide)

/-- Shared helper: adding to a list that ends in `End` inserts right
before the `End`. -/
theorem addOption_options_of_end (d : DHCPv4) (x : Option4)
    (rest : List Option4) (h : d.options = rest ++ [Option4.endOpt]) :
    (AddOption d x).options = rest ++ [x, Option4.endOpt] := by
  unfold AddOption
  rw [h, List.getLast?_concat]
  simp [Option4.code, OptionEnd]

/-- Shared helper: adding to an empty list, or to one that does not end
in an option with code 255, appends at the end. -/
theorem addOption_options_no_end (d : DHCPv4) (x : Option4)
    (h : d.options = [] ∨
      ∀ l, d.options.getLast? = some l → l.code ≠ OptionEnd) :
    (AddOption d x).options = d.options ++ [x] := by
  unfold AddOption
  cases hL : d.options.getLast? with
  | none => rfl
  | some l =>
    rcases h with h | h
    · rw [h] at hL
      simp at hL
    · dsimp only
      rw [if_neg (h l hL)]

/-- Shared helper: `AddOption` only changes the option list. -/
theorem addOption_serverIPAddr (d : DHCPv4) (x : Option4) :
    (AddOption d x).serverIPAddr = d.serverIPAddr := by
  unfold AddOption
  cases d.options.getLast? with
  | none => rfl
  | some l =>
    dsimp only
    split <;> rfl

/-- Shared helper: three `AddOption`s on a message whose option list is
`[End]` produce the three options, in order, before the `End`. -/
theorem options_after_three (D : DHCPv4) (hD : D.options = [Option4.endOpt])
    (a b c : Option4) :
    (AddOption (AddOption (AddOption D a) b) c).options =
      [a, b, c, Option4.endOpt] := by
  have h1 := addOption_options_of_end D a [] (by simpa using hD)
  have h2 := addOption_options_of_end (AddOption D a) b [a] (by simpa using h1)
  have h3 := addOption_options_of_end (AddOption (AddOption D a) b) c [a, b]
    (by simpa using h2)
  simpa using h3

/-- Claim C4: if the option list ends with `End`, `AddOption x` keeps the
trailing `End` and puts `x` immediately before it; an empty list, or one
not ending in `End`, just gets `x` appended. -/
theorem AddOption_end_law (d : DHCPv4) (x : Option4) :
    (∀ rest, d.options = rest ++ [Option4.endOpt] →
      (AddOption d x).options = rest ++ [x, Option4.endOpt]) ∧
    ((d.options = [] ∨
        ∀ l, d.options.getLast? = some l → l.code ≠ OptionEnd) →
      (AddOption d x).options = d.options ++ [x]) :=
  ⟨fun rest h => addOption_options_of_end d x rest h,
    fun h => addOption_options_no_end d x h⟩

/-- Witness for C4: both branches at concrete inputs. -/
theorem AddOption_end_law_witness :
    (AddOption mWitness .pad).options =
        [Option4.messageType 2, Option4.serverIdentifier [192, 168, 0, 1]] ++
          [Option4.pad, Option4.endOpt] ∧
      (AddOption { mWitness with options := [] } .pad).options =
        ({ mWitness with options := [] } : DHCPv4).options ++ [Option4.pad] :=
  ⟨(AddOption_end_law mWitness .pad).1
      [Option4.messageType 2, Option4.serverIdentifier [192, 168, 0, 1]]
      (by decide),
    (AddOption_end_law { mWitness with options := [] } .pad).2
      (Or.inl (by decide))⟩

/-- The `serverIP` loop state after scanning no code-54 option is still
`none`. -/
theorem lastServerID_of_no54 (opts : List Option4)
    (h : ∀ o ∈ opts, o.code ≠ OptionServerIdentifier) :
    lastServerID opts = none := by
  have aux : ∀ (l : List Option4) (acc : Option NetIP),
      (∀ o ∈ l, o.code ≠ OptionServerIdentifier) →
      l.foldl
        (fun acc o =>
          match o with
          | Option4.serverIdentifier ip => some ip
          | _ => acc)
        acc = acc := by
    intro l
    induction l with
    | nil => intro acc _; rfl
    | cons o rest ih =>
      intro acc hno
      cases o with
      | serverIdentifier ip =>
        exact absurd rfl
          (hno (Option4.serverIdentifier ip) (List.mem_cons_self _ _))
      | pad => exact ih acc fun o ho => hno o (by simp [ho])
      | endOpt => exact ih acc fun o ho => hno o (by simp [ho])
      | messageType mt => exact ih acc fun o ho => hno o (by simp [ho])
      | requestedIPAddress ip => exact ih acc fun o ho => hno o (by simp [ho])
      | parameterRequestList cs => exact ih acc fun o ho => hno o (by simp [ho])
      | generic c data => exact ih acc fun o ho => hno o (by simp [ho])
  exact aux opts none h

/-- Claim C3 (amended): `NewRequestFromOffer` fails, returning no message,
when the offer has no option with the ServerIdentifier code; otherwise it
takes the identifier of the LAST ServerIdentifier option (the scan loop
overwrites on every match), stores it in `serverIPAddr`, emits exactly
`MessageType(Request)`, `RequestedIPAddress(offer.yourIPAddr)`,
`ServerIdentifier(serverIP)` before the trailing `End`, and applies the
modifiers left to right. -/
theorem NewRequestFromOffer_spec (tid : Nat) (offer : DHCPv4)
    (mods : List (DHCPv4 → DHCPv4)) :
    ((∀ o ∈ offer.options, o.code ≠ OptionServerIdentifier) →
      NewRequestFromOffer tid offer mods =
        .error "Missing Server IP Address in DHCP Offer") ∧
    (∀ ip, lastServerID offer.options = some ip →
      ∃ base, NewRequestFromOffer tid offer mods =
          .ok (mods.foldl (fun acc m => m acc) base) ∧
        base.serverIPAddr = ip ∧
        base.options = [Option4.messageType MessageTypeRequest,
          Option4.requestedIPAddress offer.yourIPAddr,
          Option4.serverIdentifier ip, Option4.endOpt]) := by
  constructor
  · intro hno
    unfold NewRequestFromOffer
    rw [lastServerID_of_no54 offer.options hno]
  · intro ip hip
    unfold NewRequestFromOffer
    rw [hip]
    refine ⟨_, rfl, ?_, ?_⟩
    · rw [addOption_serverIPAddr, addOption_serverIPAddr,
        addOption_serverIPAddr]
    · refine options_after_three _ ?_ _ _ _
      split <;>
        simp [SetBroadcast, SetUnicast, SetClientHwAddr, SetHwAddrLen, New,
          AddOption]

/-- Witness for C3: the failure branch at an offer with no
ServerIdentifier, and the success branch at `mWitness` (one
ServerIdentifier `[192,168,0,1]`). -/
theorem NewRequestFromOffer_spec_witness :
    NewRequestFromOffer 1 offerNoSid [] =
        .error "Missing Server IP Address in DHCP Offer" ∧
      ∃ base, NewRequestFromOffer 1 mWitness [] =
          .ok (([] : List (DHCPv4 → DHCPv4)).foldl (fun acc m => m acc) base) ∧
        base.serverIPAddr = [192, 168, 0, 1] ∧
        base.options = [Option4.messageType MessageTypeRequest,
          Option4.requestedIPAddress mWitness.yourIPAddr,
          Option4.serverIdentifier [192, 168, 0, 1], Option4.endOpt] :=
  ⟨(NewRequestFromOffer_spec 1 offerNoSid []).1 (by decide),
    (NewRequestFromOffer_spec 1 mWitness []).2 [192, 168, 0, 1] (by decide)⟩

/-- Counterexample to C3 as stated: the first ServerIdentifier of the
offer is `[1,1,1,1]`, but the built request's `serverIPAddr` is
`[2,2,2,2]` — the scan loop overwrites on every match, so the LAST
ServerIdentifier wins, not the first. -/
theorem NewRequestFromOffer_first_cex :
    offerTwoSid.options.find?
        (fun o => o.code = OptionServerIdentifier) =
      some (Option4.serverIdentifier [1, 1, 1, 1]) ∧
    (NewRequestFromOffer 0 offerTwoSid []).toOption.map DHCPv4.serverIPAddr =
      some [2, 2, 2, 2] ∧
    (NewRequestFromOffer 0 offerTwoSid []).toOption.map DHCPv4.serverIPAddr ≠
      some [1, 1, 1, 1] := by
  refine ⟨by decide, by decide, by decide⟩

/-- Claim C5, evaluated (code bug): `NewInform` is unicast, sets the
client IP, and adds `MessageType(Inform)` — but its option list DOES end
with the `End` option, because `New` already inserted one and `AddOption`
keeps it last.  This contradicts `NewInform`'s own doc comment ("It does
NOT put a DHCP End option at the end"), which the claim follows. -/
theorem NewInform_eval :
    IsBroadcast (NewInform 7 [0, 17, 34, 51, 68, 85] [10, 0, 0, 2]) = false ∧
      (NewInform 7 [0, 17, 34, 51, 68, 85] [10, 0, 0, 2]).clientIPAddr =
        [10, 0, 0, 2] ∧
      MessageTypeOf (NewInform 7 [0, 17, 34, 51, 68, 85] [10, 0, 0, 2]) =
        some MessageTypeInform ∧
      (NewInform 7 [0, 17, 34, 51, 68, 85] [10, 0, 0, 2]).options =
        [Option4.messageType MessageTypeInform, Option4.endOpt] ∧
      Option4.endOpt ∈
        (NewInform 7 [0, 17, 34, 51, 68, 85] [10, 0, 0, 2]).options := by
  refine ⟨by decide, by decide, by decide, by decide, by decide⟩

/-- Both netboot codes are in the updated request list. -/
theorem mem_netbootCodes (cs : List Nat) :
    OptionTFTPServerName ∈ netbootCodes cs ∧
      OptionBootfileName ∈ netbootCodes cs := by
  unfold netbootCodes
  by_cases h66 : OptionTFTPServerName ∈ cs <;>
    by_cases h67 : OptionBootfileName ∈ cs <;>
      simp [h66, h67]

/-- When both codes are already present nothing is appended. -/
theorem netbootCodes_of_mem (cs : List Nat)
    (h66 : OptionTFTPServerName ∈ cs) (h67 : OptionBootfileName ∈ cs) :
    netbootCodes cs = cs := by
  simp [netbootCodes, h66, h67]

/-- Each code's multiplicity after the update: unchanged when present,
exactly one when absent. -/
theorem count_netbootCodes (cs : List Nat) :
    (netbootCodes cs).count OptionTFTPServerName =
        max (cs.count OptionTFTPServerName) 1 ∧
      (netbootCodes cs).count OptionBootfileName =
        max (cs.count OptionBootfileName) 1 := by
  simp only [netbootCodes, OptionTFTPServerName, OptionBootfileName]
  by_cases h66 : (66 : Nat) ∈ cs <;> by_cases h67 : (67 : Nat) ∈ cs
  · have c66 := List.count_pos_iff.mpr h66
    have c67 := List.count_pos_iff.mpr h67
    simp only [if_pos h66, if_pos h67]
    omega
  · have c66 := List.count_pos_iff.mpr h66
    have z67 := List.count_eq_zero_of_not_mem h67
    simp only [if_pos h66, if_neg h67, List.count_append, List.count_cons,
      List.count_nil]
    norm_num
    all_goals first
      | (constructor <;> first | omega | assumption)
      | omega
      | assumption
  · have c67 := List.count_pos_iff.mpr h67
    have z66 := List.count_eq_zero_of_not_mem h66
    simp only [if_neg h66, if_pos h67, List.count_append, List.count_cons,
      List.count_nil]
    norm_num
    all_goals first
      | (constructor <;> first | omega | assumption)
      | omega
      | assumption
  · have z66 := List.count_eq_zero_of_not_mem h66
    have z67 := List.count_eq_zero_of_not_mem h67
    simp only [if_neg h66, if_neg h67, List.count_append, List.count_cons,
      List.count_nil]
    norm_num
    all_goals first
      | (constructor <;> first | omega | assumption)
      | omega
      | assumption

/-- Replacing the first code-55 option leaves it first, with the new
codes. -/
theorem find?_setFirst55 :
    ∀ (l : List Option4) (cs : List Nat),
      (l.find? (fun o => o.code = OptionParameterRequestList)).isSome = true →
      (setFirst55 l cs).find?
          (fun o => o.code = OptionParameterRequestList) =
        some (Option4.parameterRequestList cs) := by
  intro l
  induction l with
  | nil => intro cs h; simp [List.find?] at h
  | cons o rest ih =>
    intro cs h
    by_cases h55 : o.code = OptionParameterRequestList
    · simp only [setFirst55, if_pos h55]
      exact List.find?_cons_of_pos _ rfl
    · simp only [setFirst55, if_neg h55]
      rw [List.find?_cons_of_neg _ (by simpa using h55)]
      apply ih
      rw [List.find?_cons_of_neg _ (by simpa using h55)] at h
      exact h

/-- Writing back the codes it already holds does not change the list. -/
theorem setFirst55_self :
    ∀ (l : List Option4) (cs : List Nat),
      l.find? (fun o => o.code = OptionParameterRequestList) =
        some (Option4.parameterRequestList cs) →
      setFirst55 l cs = l := by
  intro l
  induction l with
  | nil => intro cs h; simp [List.find?] at h
  | cons o rest ih =>
    intro cs h
    by_cases h55 : o.code = OptionParameterRequestList
    · rw [List.find?_cons_of_pos _ (by simpa using h55)] at h
      have ho : o = Option4.parameterRequestList cs := Option.some.inj h
      subst ho
      simp only [setFirst55, if_pos h55]
    · rw [List.find?_cons_of_neg _ (by simpa using h55)] at h
      simp [setFirst55, if_neg h55, ih cs h]

/-- Two successive first-55 replacements collapse to the second one. -/
theorem setFirst55_setFirst55 :
    ∀ (l : List Option4) (cs cs' : List Nat),
      setFirst55 (setFirst55 l cs) cs' = setFirst55 l cs' := by
  intro l
  induction l with
  | nil => intro cs cs'; rfl
  | cons o rest ih =>
    intro cs cs'
    by_cases h55 : o.code = OptionParameterRequestList
    · simp only [setFirst55, if_pos h55]
      rw [if_pos (show (Option4.parameterRequestList cs).code =
        OptionParameterRequestList from rfl)]
    · simp [setFirst55, if_neg h55, ih]

/-- `AddOption` puts the new option where the first-match search finds
it, when nothing matched before. -/
theorem find?_addOption (d : DHCPv4) (x : Option4) (p : Option4 → Bool)
    (hnone : d.options.find? p = none) (hx : p x = true) :
    (AddOption d x).options.find? p = some x := by
  unfold AddOption
  cases hL : d.options.getLast? with
  | none =>
    have hnil : d.options = [] := List.getLast?_eq_none_iff.mp hL
    simp [hnil, List.find?, hx]
  | some l =>
    dsimp only
    split
    · have hsub : d.options.dropLast.find? p = none := by
        rw [List.find?_eq_none] at hnone ⊢
        intro y hy
        exact hnone y (List.dropLast_subset _ hy)
      rw [List.find?_append, hsub]
      simp [List.find?, hx]
    · rw [List.find?_append, hnone]
      simp [List.find?, hx]

/-- The two branch equations of `WithNetboot`. -/
theorem WithNetboot_eq_of_none (d : DHCPv4)
    (h : d.options.find? (fun o => o.code = OptionParameterRequestList) =
      none) :
    WithNetboot d = AddOption d
      (.parameterRequestList [OptionTFTPServerName, OptionBootfileName]) := by
  unfold WithNetboot GetOneOption
  rw [h]

theorem WithNetboot_eq_of_find (d : DHCPv4) (cs : List Nat)
    (h : d.options.find? (fun o => o.code = OptionParameterRequestList) =
      some (Option4.parameterRequestList cs)) :
    WithNetboot d =
      { d with options := setFirst55 d.options (netbootCodes cs) } := by
  unfold WithNetboot GetOneOption
  rw [h]

/-- Claim C6 (amended): when every code-55 option is a genuine
ParameterRequestList (the Go type assertion would panic otherwise),
`WithNetboot` is idempotent — the second application changes nothing —
and each of `TFTPServerName` and `BootfileName` is added only when
absent: its multiplicity in the (first) parameter request list after the
applications is `max(original multiplicity, 1)`; in particular at most
once when it occurred at most once before (e.g. when the list was
absent). -/
theorem WithNetboot_idem (d : DHCPv4)
    (hp : ∀ o ∈ d.options, o.code = OptionParameterRequestList →
      ∃ cs, o = Option4.parameterRequestList cs) :
    WithNetboot (WithNetboot d) = WithNetboot d ∧
      (firstPRLCodes (WithNetboot d)).isSome = true ∧
      ∀ cs', firstPRLCodes (WithNetboot d) = some cs' →
        cs'.count OptionTFTPServerName =
            max (((firstPRLCodes d).getD []).count OptionTFTPServerName) 1 ∧
          cs'.count OptionBootfileName =
            max (((firstPRLCodes d).getD []).count OptionBootfileName) 1 := by
  cases hfind : d.options.find?
      (fun o => o.code = OptionParameterRequestList) with
  | none =>
    have hW := WithNetboot_eq_of_none d hfind
    have hfind1 : (WithNetboot d).options.find?
        (fun o => o.code = OptionParameterRequestList) =
        some (Option4.parameterRequestList
          [OptionTFTPServerName, OptionBootfileName]) := by
      rw [hW]
      exact find?_addOption d _ _ hfind rfl
    have hPRLW : firstPRLCodes (WithNetboot d) =
        some [OptionTFTPServerName, OptionBootfileName] := by
      unfold firstPRLCodes GetOneOption
      rw [hfind1]
    have hPRLd : firstPRLCodes d = none := by
      unfold firstPRLCodes GetOneOption
      rw [hfind]
    refine ⟨?_, by rw [hPRLW]; rfl, ?_⟩
    · rw [WithNetboot_eq_of_find (WithNetboot d) _ hfind1,
        netbootCodes_of_mem _ (by decide) (by decide),
        setFirst55_self _ _ hfind1]
    · intro cs' hcs'
      rw [hPRLW] at hcs'
      injection hcs' with hh
      rw [← hh, hPRLd]
      exact ⟨by decide, by decide⟩
  | some o =>
    have hmem := List.mem_of_find?_eq_some hfind
    have hcode : o.code = OptionParameterRequestList := by
      have := List.find?_some hfind
      simpa using this
    obtain ⟨cs, rfl⟩ := hp o hmem hcode
    have hW := WithNetboot_eq_of_find d cs hfind
    have hfind1 : (WithNetboot d).options.find?
        (fun o => o.code = OptionParameterRequestList) =
        some (Option4.parameterRequestList (netbootCodes cs)) := by
      rw [hW]
      exact find?_setFirst55 d.options (netbootCodes cs) (by rw [hfind]; rfl)
    have hPRLW : firstPRLCodes (WithNetboot d) =
        some (netbootCodes cs) := by
      unfold firstPRLCodes GetOneOption
      rw [hfind1]
    have hPRLd : firstPRLCodes d = some cs := by
      unfold firstPRLCodes GetOneOption
      rw [hfind]
    refine ⟨?_, by rw [hPRLW]; rfl, ?_⟩
    · rw [WithNetboot_eq_of_find (WithNetboot d) _ hfind1,
        netbootCodes_of_mem _ (mem_netbootCodes cs).1 (mem_netbootCodes cs).2,
        hW]
      dsimp only
      rw [setFirst55_setFirst55]
    · intro cs' hcs'
      rw [hPRLW] at hcs'
      injection hcs' with hh
      rw [← hh, hPRLd]
      exact count_netbootCodes cs

/-- Counterexample to C6 as stated: `WithNetboot` never deduplicates, so
a message whose list already held `TFTPServerName` twice still holds it
twice after two applications — not "at most once". -/
theorem WithNetboot_twice_cex :
    ((firstPRLCodes (WithNetboot (WithNetboot dPrlCex))).getD []).count
        OptionTFTPServerName = 2 ∧
      ¬((firstPRLCodes (WithNetboot (WithNetboot dPrlCex))).getD []).count
          OptionTFTPServerName ≤ 1 := by
  refine ⟨by decide, by decide⟩

/-- Witness for C6 (amended) at `dPrlCex`. -/
theorem WithNetboot_idem_witness :
    WithNetboot (WithNetboot dPrlCex) = WithNetboot dPrlCex ∧
      (firstPRLCodes (WithNetboot dPrlCex)).isSome = true ∧
      ∀ cs', firstPRLCodes (WithNetboot dPrlCex) = some cs' →
        cs'.count OptionTFTPServerName =
            max (((firstPRLCodes dPrlCex).getD []).count OptionTFTPServerName)
              1 ∧
          cs'.count OptionBootfileName =
            max (((firstPRLCodes dPrlCex).getD []).count OptionBootfileName)
              1 :=
  WithNetboot_idem dPrlCex (by
    intro o ho hc
    fin_cases ho
    · exact ⟨[66, 66], rfl⟩
    · exact absurd hc (by decide))

/-- Claim C7 (amended): the receive loop never returns a message whose
transaction id differs from the sent packet's; every accepted reply has
opcode `BOOTREPLY` and, when a specific message type is expected, that
type; a datagram that PARSES but fails any of the checks is silently
dropped (the loop result is that of the remaining datagrams) — but a
datagram that fails to parse kills the receiver (`client.go:211-217`
checks the outer `err` instead of `innerErr` and then dereferences the
nil message), so no reply is returned at all. -/
theorem receiveLoop_correlation (tid expected : Nat)
    (bufs : List (List Nat)) :
    (∀ r, receiveLoop tid expected bufs = some r →
      r.transactionID = tid ∧ r.opcode = OpcodeBootReply ∧
        (expected ≠ MessageTypeNone → MessageTypeOf r = some expected)) ∧
    (∀ buf rest r', bufs = buf :: rest → FromBytes buf = .ok r' →
      (r'.transactionID ≠ tid ∨ r'.opcode ≠ OpcodeBootReply ∨
        (expected ≠ MessageTypeNone ∧ MessageTypeOf r' ≠ some expected)) →
      receiveLoop tid expected bufs = receiveLoop tid expected rest) ∧
    (∀ buf rest e, bufs = buf :: rest → FromBytes buf = .error e →
      receiveLoop tid expected bufs = none) := by
  refine ⟨?_, ?_, ?_⟩
  · induction bufs with
    | nil => intro r h; simp [receiveLoop] at h
    | cons buf rest ih =>
      intro r h
      simp only [receiveLoop] at h
      cases hF : FromBytes buf with
      | error e => rw [hF] at h; simp at h
      | ok resp =>
        rw [hF] at h
        dsimp only at h
        by_cases h1 : resp.transactionID ≠ tid
        · rw [if_pos h1] at h; exact ih r h
        · rw [if_neg h1] at h
          by_cases h2 : resp.opcode ≠ OpcodeBootReply
          · rw [if_pos h2] at h; exact ih r h
          · rw [if_neg h2] at h
            by_cases h3 : expected = MessageTypeNone
            · rw [if_pos h3] at h
              have hr := Option.some.inj h
              subst hr
              exact ⟨not_not.mp h1, not_not.mp h2,
                fun hne => absurd h3 hne⟩
            · rw [if_neg h3] at h
              by_cases h4 : MessageTypeOf resp = some expected
              · rw [if_pos h4] at h
                have hr := Option.some.inj h
                subst hr
                exact ⟨not_not.mp h1, not_not.mp h2, fun _ => h4⟩
              · rw [if_neg h4] at h; exact ih r h
  · intro buf rest r' hb hF hdrop
    subst hb
    simp only [receiveLoop, hF]
    rcases hdrop with h1 | h2 | ⟨h3a, h3b⟩
    · rw [if_pos h1]
    · by_cases h1 : r'.transactionID ≠ tid
      · rw [if_pos h1]
      · rw [if_neg h1, if_pos h2]
    · by_cases h1 : r'.transactionID ≠ tid
      · rw [if_pos h1]
      · rw [if_neg h1]
        by_cases h2 : r'.opcode ≠ OpcodeBootReply
        · rw [if_pos h2]
        · rw [if_neg h2, if_neg h3a, if_neg h3b]
  · intro buf rest e hb hF
    subst hb
    simp only [receiveLoop, hF]

/-- Witness for C7: the loop accepts a matching serialized reply, drops
a parsed reply with a foreign transaction id, and returns nothing once an
unparseable datagram arrives. -/
theorem receiveLoop_correlation_witness :
    (mReply.transactionID = 305419896 ∧ mReply.opcode = OpcodeBootReply ∧
      (MessageTypeOffer ≠ MessageTypeNone →
        MessageTypeOf mReply = some MessageTypeOffer)) ∧
    receiveLoop 305419896 MessageTypeOffer [ToBytes mStray] =
      receiveLoop 305419896 MessageTypeOffer [] ∧
    receiveLoop 305419896 MessageTypeOffer [[7, 7, 7], ToBytes mReply] =
      none :=
  ⟨(receiveLoop_correlation 305419896 MessageTypeOffer
        [ToBytes mReply]).1 mReply
      (by set_option maxRecDepth 100000 in decide),
    (receiveLoop_correlation 305419896 MessageTypeOffer
        [ToBytes mStray]).2.1 (ToBytes mStray) [] mStray rfl
      (by set_option maxRecDepth 100000 in rfl)
      (Or.inl (by decide)),
    (receiveLoop_correlation 305419896 MessageTypeOffer
        [[7, 7, 7], ToBytes mReply]).2.2 [7, 7, 7] [ToBytes mReply]
      "Invalid DHCPv4 header: shorter than 236 bytes" rfl rfl⟩

/-- Counterexample to C7 as stated: an unparseable datagram is NOT
silently dropped.  The 3-byte garbage datagram `[7,7,7]` is not an
acceptable reply (it does not even parse), yet with it in front of a
genuine matching reply the receiver returns no message at all — the
receive path dies on the parse failure (`client.go:211-217` checks the
wrong error variable, then dereferences the nil message) instead of
skipping the datagram and returning the reply that follows. -/
theorem receiveLoop_drop_cex :
    FromBytes [7, 7, 7] =
        .error "Invalid DHCPv4 header: shorter than 236 bytes" ∧
      receiveLoop 305419896 MessageTypeOffer [ToBytes mReply] =
        some mReply ∧
      receiveLoop 305419896 MessageTypeOffer [[7, 7, 7], ToBytes mReply] =
        none ∧
      receiveLoop 305419896 MessageTypeOffer [[7, 7, 7], ToBytes mReply] ≠
        receiveLoop 305419896 MessageTypeOffer [ToBytes mReply] := by
  refine ⟨rfl, by set_option maxRecDepth 100000 in decide, rfl, ?_⟩
  intro hcon
  rw [show receiveLoop 305419896 MessageTypeOffer
      [[7, 7, 7], ToBytes mReply] = none from rfl] at hcon
  have : (none : Option DHCPv4) ≠
      receiveLoop 305419896 MessageTypeOffer [ToBytes mReply] := by
    set_option maxRecDepth 100000 in decide
  exact this hcon

theorem getD_drop (l : List Nat) (n i : Nat) :
    (l.drop n).getD i 0 = l.getD (n + i) 0 := by
  simp [List.getD, List.getElem?_drop]

/-- Big-endian decoding of the first four bytes, as a polynomial in the
byte values. -/
theorem beVal_take4 (l : List Nat) (h : 4 ≤ l.length) :
    beVal (l.take 4) = l.getD 0 0 * 16777216 + l.getD 1 0 * 65536 +
      l.getD 2 0 * 256 + l.getD 3 0 := by
  match l, h with
  | a :: b :: c :: d :: rest, _ =>
    simp [beVal, List.take, List.getD, List.foldl]
    ring

/-- Claim C9: `ParseOptIAPrefix` errors on every payload shorter than 25
bytes and succeeds on every payload of at least 25 bytes, decoding
`preferred_lifetime` (big-endian u32), `valid_lifetime` (big-endian u32),
`prefix_length` (u8) and the 16-byte IPv6 prefix in that wire order, with
the remainder as sub-options. -/
theorem parseIAPrefixOpt_spec (buf : List Nat) :
    (buf.length < 25 →
      parseIAPrefixOpt buf = .error "OptIAPrefix: shorter than 25 bytes") ∧
    (25 ≤ buf.length → ∃ p, parseIAPrefixOpt buf = .ok p ∧
      p.preferredLifetime = buf.getD 0 0 * 16777216 + buf.getD 1 0 * 65536 +
        buf.getD 2 0 * 256 + buf.getD 3 0 ∧
      p.validLifetime = buf.getD 4 0 * 16777216 + buf.getD 5 0 * 65536 +
        buf.getD 6 0 * 256 + buf.getD 7 0 ∧
      p.prefixLength = buf.getD 8 0 ∧
      p.prefixBytes = (buf.drop 9).take 16 ∧
      p.prefixBytes.length = 16 ∧
      p.subOptions = buf.drop 25) := by
  constructor
  · intro h
    unfold parseIAPrefixOpt
    rw [if_pos h]
  · intro h
    unfold parseIAPrefixOpt
    rw [if_neg (by omega)]
    refine ⟨_, rfl, ?_, ?_, rfl, rfl, ?_, rfl⟩
    · exact beVal_take4 buf (by omega)
    · rw [beVal_take4 (buf.drop 4) (by simp [List.length_drop]; omega)]
      simp [getD_drop]
    · simp only [List.length_take, List.length_drop]
      omega

/-- Witness for C9 at the repository's own test vectors. -/
theorem parseIAPrefixOpt_spec_witness :
    parseIAPrefixOpt bufS3 = .error "OptIAPrefix: shorter than 25 bytes" ∧
      ∃ p, parseIAPrefixOpt bufS1 = .ok p ∧
        p.preferredLifetime = bufS1.getD 0 0 * 16777216 +
          bufS1.getD 1 0 * 65536 + bufS1.getD 2 0 * 256 + bufS1.getD 3 0 ∧
        p.validLifetime = bufS1.getD 4 0 * 16777216 +
          bufS1.getD 5 0 * 65536 + bufS1.getD 6 0 * 256 + bufS1.getD 7 0 ∧
        p.prefixLength = bufS1.getD 8 0 ∧
        p.prefixBytes = (bufS1.drop 9).take 16 ∧
        p.prefixBytes.length = 16 ∧
        p.subOptions = bufS1.drop 25 :=
  ⟨(parseIAPrefixOpt_spec bufS3).1 (by decide),
    (parseIAPrefixOpt_spec bufS1).2 (by decide)⟩

end Dhcp
